import Mathlib

/-!
Verification development for the pyFSRS experiment-orchestration engine.

The definitions below are shallow embeddings of the Python source:

* `FSRSutils.py` — scan-point generation (`linCount`, `linspace`,
  `prepareScanPointsLin`, `onAxisRangeChangeStop`) and the filename
  convention (`formatFSRSFilename`).
* `FSRSModule.py` — the property model (`ModPropState`, `setValue`), and the
  `Experiment` start / onFinished / shutdown lifecycle.
* `FSRSAcquire.py` — the running-mean accumulator (`acquireStep`).
* `FSRSScan2.py` — the scan thread `ScanThread.run`, modelled as a trace of
  device events (`scanRun`), with cooperative cancellation modelled as an
  `Option Nat` giving the poll index from which the stop flag reads true.
* `PIXIS100.py` — `readNframes` with its bounded retry loop.
* `pyFSRS.py` — the application exit path `onExitApp`.

Machine floats are modelled by exact rationals; Python `int()` truncation is
`pyInt`.
-/

namespace FSRS

/-! ## FSRSAcquire.onUpdate — running-mean accumulator (lines 143-159) -/

/-- State of the FSRSAcquire accumulator: frame counter `N` and running mean
`data`.  The per-frame array is abstracted to a single rational sample, since
the update acts elementwise. -/
structure AcqState where
  N : Nat
  data : ℚ
  deriving DecidableEq

/-- One call of `FSRSAcquire.onUpdate`: `self.N += 1`; if `N == 1` the data
buffer is initialised to the sample, otherwise
`data = data + (x - data) / N`. -/
def acquireStep (s : AcqState) (x : ℚ) : AcqState :=
  let n := s.N + 1
  { N := n, data := if n = 1 then x else s.data + (x - s.data) / (n : ℚ) }

/-- Folding `onUpdate` over a whole sequence of per-set results, starting from
the `onStart` reset (`N = 0`, empty buffer). -/
def acquireRun (xs : List ℚ) : AcqState :=
  xs.foldl acquireStep { N := 0, data := 0 }

/-! ## FSRSutils.formatFSRSFilename (lines 148-181) -/

/-- Python `int()` applied to a float: truncation toward zero. -/
def pyInt (q : ℚ) : ℤ :=
  if 0 ≤ q then ⌊q⌋ else ⌈q⌉

/-- `FSRSutils.formatFSRSFilename`: historical filename convention
`basename_(p/m)|step|(gr/exc/_)set`.  Faithful to the source's chain of
conditions, including the `step == 0 and (shutter == 1 or type == 1)` case. -/
def formatFSRSFilename (type : ℤ) (basename : String) (step : ℚ)
    (set : ℤ) (shutter : ℤ) : String :=
  let name := basename ++ "_"
  let name :=
    if step > 0 then name ++ "p"
    else if step < 0 then name ++ "m"
    else if step = 0 ∧ (shutter = 1 ∨ type = 1) then name ++ "m"
    else name
  let name := name ++ toString (pyInt step).natAbs
  let name :=
    if type = 0 then
      (if shutter = 0 then name ++ "gr" else name ++ "exc")
    else name ++ "_"
  name ++ toString set

/-! ## FSRSutils scan-point generation (lines 59-120)

`onAxisRangeChange` (linear branch) recomputes the number of steps
`N = max(2, int(abs(stop - start) / abs(steps) + 1))` and rewrites the stop
position as `(N - 1) * steps + start`; `prepareScanPoints` (linear branch)
recomputes the same `N` and returns `np.linspace(start, stop, N)`. -/

/-- Linear point count `max(2, int(|stop - start| / |steps| + 1))`.  For the
nonnegative quotient, Python `int` truncation is the floor. -/
def linCount (start stop steps : ℚ) : Nat :=
  max 2 ((⌊|stop - start| / |steps|⌋).toNat + 1)

/-- `np.linspace(start, stop, N)` with endpoint included:
`pts[i] = start + (stop - start) * i / (N - 1)`. -/
def linspace (start stop : ℚ) (N : Nat) : List ℚ :=
  (List.range N).map (fun i : ℕ => start + (stop - start) * (i : ℚ) / ((N : ℚ) - 1))

/-- Linear branch of `FSRSutils.prepareScanPoints`. -/
def prepareScanPointsLin (start stop steps : ℚ) : List ℚ :=
  linspace start stop (linCount start stop steps)

/-- Stop value written back by the linear branch of
`FSRSutils.onAxisRangeChange`: `stop = (N - 1) * steps + start`. -/
def onAxisRangeChangeStop (start stop steps : ℚ) : ℚ :=
  ((linCount start stop steps : ℚ) - 1) * steps + start

/-- The "from file" branch of `FSRSutils.prepareScanPoints`: `points` is
initialised to the empty list and only replaced by the file contents when a
filename has been selected. -/
def prepareScanPointsFromFile (filename : String) (fileData : List ℚ) : List ℚ :=
  if filename = "" then [] else fileData

/-! ## ModProp.setValue — property value validation (FSRSModule.py lines 266-293)

Property values are dynamically typed in Python; the model covers integers,
floats and strings (`PyVal`).  Comparison helpers reproduce Python 2
semantics: `True == 1`, `False == 0`, and any string compares greater than
any number. -/

/-- A dynamically typed Python property value: int/bool, float, or string. -/
inductive PyVal where
  | pint (n : ℤ)
  | pfloat (q : ℚ)
  | pstr (s : String)
  deriving DecidableEq

/-- Python equality test `val == k` against an integer constant. -/
def pyEqInt (v : PyVal) (k : ℤ) : Bool :=
  match v with
  | .pint n => n = k
  | .pfloat q => q = (k : ℚ)
  | .pstr _ => false

/-- Python 2 comparison `val < k` against an integer constant (strings compare
greater than all numbers). -/
def pyLtInt (v : PyVal) (k : ℤ) : Bool :=
  match v with
  | .pint n => n < k
  | .pfloat q => q < (k : ℚ)
  | .pstr _ => false

/-- Python 2 comparison `val > k` against an integer constant. -/
def pyGtInt (v : PyVal) (k : ℤ) : Bool :=
  match v with
  | .pint n => k < n
  | .pfloat q => (k : ℚ) < q
  | .pstr _ => true

/-- Python 2 comparison `val >= k` against an integer constant. -/
def pyGeInt (v : PyVal) (k : ℤ) : Bool :=
  match v with
  | .pint n => k ≤ n
  | .pfloat q => (k : ℚ) ≤ q
  | .pstr _ => true

/-- Python `int(val)` coercion: identity on ints, truncation toward zero on
floats, digit-string parsing on strings (`ValueError`, i.e. `none`, when the
string is not an integer literal). -/
def pyToInt (v : PyVal) : Option ℤ :=
  match v with
  | .pint n => some n
  | .pfloat q => some (pyInt q)
  | .pstr s => s.toInt?

/-- The property types of `ModProp.setType`. -/
inductive PropType where
  | label | input | choice | button | checkbox | toggle | file | progress | spin
  deriving DecidableEq

/-- The validation-relevant state of a `ModProp`: its type, its choice list
and its current value. -/
structure ModPropState where
  ptype : PropType
  choices : List String
  value : PyVal
  deriving DecidableEq

/-- `ModProp.setValue` (FSRSModule.py lines 266-293).  The source raises
`ValueError` in four guarded cases and otherwise stores the value (for spin
properties the value is first coerced with `int`).  In the checkbox guard the
Python disjunct `(not val and val)` is identically false and is dropped.
Note the choice guard `val != 0 and (val < 0 or val >= len(self.choices))`:
the value 0 is accepted unconditionally. -/
def setValue (p : ModPropState) (val : PyVal) : Except String ModPropState :=
  if (p.ptype = .checkbox ∨ p.ptype = .toggle) ∧
      (¬ pyEqInt val 0 ∧ ¬ pyEqInt val 1) then
    .error "Invalid value for property type checkbox"
  else if p.ptype = .choice ∧ ¬ pyEqInt val 0 ∧
      (pyLtInt val 0 ∨ pyGeInt val p.choices.length) then
    .error "Invalid value for property type choice! Index out of range"
  else if p.ptype = .progress ∧ (pyLtInt val 0 ∨ pyGtInt val 100) then
    .error "Invalid value for property type progress (0..100)"
  else if p.ptype = .spin then
    match pyToInt val with
    | none => .error "Invalid value for property type spin: must be integer!"
    | some n => .ok { p with value := .pint n }
  else
    .ok { p with value := val }

/-- Modelled from the spec sentence behind claim C6 (refinement reference):
`setValue` should fail exactly when a choice index is outside
`[0, len(choices))`, a checkbox/toggle value is not boolean-like, a progress
value is outside `[0, 100]`, or a spin value is not integer-coercible. -/
def claimSetValueErrors (p : ModPropState) (val : PyVal) : Bool :=
  if p.ptype = .choice then
    ¬ (¬ pyLtInt val 0 ∧ pyLtInt val p.choices.length)
  else if p.ptype = .checkbox ∨ p.ptype = .toggle then
    ¬ (pyEqInt val 0 ∨ pyEqInt val 1)
  else if p.ptype = .progress then
    ¬ (¬ pyLtInt val 0 ∧ ¬ pyGtInt val 100)
  else if p.ptype = .spin then
    (pyToInt val).isNone
  else
    false

/-- Amended error characterisation for claim C6: identical to the claim except
that a *zero* choice value is always accepted, even when the choice list is
empty. -/
def amendedSetValueErrors (p : ModPropState) (val : PyVal) : Bool :=
  if p.ptype = .choice then
    ¬ pyEqInt val 0 ∧ (pyLtInt val 0 ∨ pyGeInt val p.choices.length)
  else if p.ptype = .checkbox ∨ p.ptype = .toggle then
    ¬ (pyEqInt val 0 ∨ pyEqInt val 1)
  else if p.ptype = .progress then
    pyLtInt val 0 ∨ pyGtInt val 100
  else if p.ptype = .spin then
    (pyToInt val).isNone
  else
    false

/-- Whether an `Except` result is a success (no `ValueError` raised). -/
def exceptOk {α : Type} : Except String α → Bool
  | .ok _ => true
  | .error _ => false

/-- A choice property with an empty choice list and current selection 0, as
produced by `parsePropertiesDict` for the device dropdowns of `FSRSScan2`
before `initialize` fills them. -/
def emptyChoiceProp : ModPropState :=
  { ptype := .choice, choices := [], value := .pint 0 }

/-- A checkbox property used as a concrete evaluation point. -/
def checkboxDemoProp : ModPropState :=
  { ptype := .checkbox, choices := [], value := .pint 0 }

/-! ## Experiment lifecycle (FSRSModule.py lines 721-851) and the application
exit path (pyFSRS.py lines 175-183) -/

/-- A scan thread handle as seen by the controller: liveness and the
cooperative stop flag (`canQuit` event). -/
structure ThreadHandle where
  alive : Bool
  stopFlag : Bool
  deriving DecidableEq

/-- Controller-side state of an `Experiment` module: the scan-thread handle
and the `running` flag.  GUI widgets (button labels, frozen controls) are
external to the model. -/
structure ExpState where
  scanThread : Option ThreadHandle
  running : Bool
  deriving DecidableEq

/-- `Experiment.start` (lines 753-770).  If `self.scanThread is not None`
the call returns immediately; otherwise a new thread is created and started.
The returned Bool records whether a thread was spawned. -/
def expStart (s : ExpState) : ExpState × Bool :=
  match s.scanThread with
  | some _ => (s, false)
  | none => ({ s with scanThread := some { alive := true, stopFlag := false } }, true)

/-- Iterated `Experiment.start` calls (state part only). -/
def expStartN : Nat → ExpState → ExpState
  | 0, s => s
  | n + 1, s => expStartN n (expStart s).1

/-- `Experiment.onFinished` (lines 805-825).  The handle is joined and reset
to `None` only when `self.scanThread is not None and self.scanThread.is_alive()`;
afterwards `self.running = False` in every case. -/
def expOnFinished (s : ExpState) : ExpState :=
  match s.scanThread with
  | some t =>
      if t.alive then { s with scanThread := none, running := false }
      else { s with running := false }
  | none => { s with running := false }

/-- `Experiment.shutdown` (lines 845-851): when a live scan thread exists it
is stopped (the `canQuit` flag is set) and joined (the thread terminates). -/
def expShutdown (s : ExpState) : ExpState :=
  match s.scanThread with
  | some t =>
      if t.alive then
        { s with scanThread := some { alive := false, stopFlag := true } }
      else s
  | none => s

/-- `pyFSRS.onExitApp` (pyFSRS.py lines 175-183).  The loop body is the bare
attribute access `m.shutdown` — the hook is never called — so every module
state passes through unchanged. -/
def pyFSRSonExitApp (ms : List ExpState) : List ExpState :=
  if 0 < ms.length then ms.map (fun m => m) else ms

/-- An experiment module with a live scan thread, as left behind when the
user closes the application during a scan. -/
def demoRunningExp : ExpState :=
  { scanThread := some { alive := true, stopFlag := false }, running := true }

/-- A handle to a scan thread that has already terminated. -/
def deadThread : ThreadHandle :=
  { alive := false, stopFlag := true }

/-- An experiment module still holding the handle of a terminated thread. -/
def deadThreadExp : ExpState :=
  { scanThread := some deadThread, running := true }

/-! ## FSRSScan2.ScanThread.run (FSRSScan2.py lines 235-324)

The scan thread is modelled as a trace of device/GUI events.  Cooperative
cancellation is a monotone flag: `cancel = some c` means every poll of
`canQuit.isSet()` from the `c`-th one on reads true (`cancel = none` = never
cancelled).  Polls are numbered in program order; device calls are trace
events.  Sleeps and print statements produce no events. -/

/-- Events emitted by the scan thread, in source order. -/
inductive ScanEvent where
  | started
  | axisPos
  | gotoPos (x : ℚ)
  | shutterWrite (v : Nat)
  | readFrames
  | refRead
  | update (grexc : Nat) (step : ℚ) (cset : Nat)
  | setRefWait
  | finished (withData : Bool)
  deriving DecidableEq

/-- Whether the scan-thread stop flag reads true at poll index `t`. -/
def flagAt (cancel : Option Nat) (t : Nat) : Bool :=
  match cancel with
  | none => false
  | some c => c ≤ t

/-- Predicate selecting the `finished` events of a trace. -/
def isFin : ScanEvent → Bool
  | .finished _ => true
  | _ => false

/-- The inner per-point loop of `ScanThread.run` (lines 281-299):
`while(cpoint < len(self.points) and self.canQuit.isSet() == 0)`.  The body
re-polls the flag; when it still reads false the frame is read, the optional
reference input is read, the update event is posted and `cpoint` advances;
in either case the axis is commanded to the next point
(`self.points[cpoint % len(self.points)]`).  Returns the trace and the poll
index after the loop. -/
def innerLoop (pts : List ℚ) (hasRef : Bool) (cancel : Option Nat)
    (cset cpoint t : Nat) : List ScanEvent × Nat :=
  if h : cpoint < pts.length then
    if h0 : flagAt cancel t then ([], t + 1)
    else if h1 : flagAt cancel (t + 1) then
      let r := innerLoop pts hasRef cancel cset cpoint (t + 2)
      (ScanEvent.gotoPos (pts.getD (cpoint % pts.length) 0) :: r.1, r.2)
    else
      let e := ScanEvent.readFrames ::
        ((if hasRef then [ScanEvent.refRead] else []) ++
         [ScanEvent.update 1 (pts.getD cpoint 0) cset,
          ScanEvent.gotoPos (pts.getD ((cpoint + 1) % pts.length) 0)])
      let r := innerLoop pts hasRef cancel cset (cpoint + 1) (t + 2)
      (e ++ r.1, r.2)
  else ([], t)
termination_by 2 * (pts.length - cpoint) + (if flagAt cancel t then 0 else 1)
decreasing_by
  · have h2 : flagAt cancel (t + 2) = true := by
      cases cancel with
      | none => simp [flagAt] at h1
      | some c =>
          simp only [flagAt, decide_eq_true_eq] at h1 ⊢
          omega
    rw [if_pos h2, if_neg h0]
    omega
  · rw [if_neg h0]
    have hlen : cpoint < pts.length := h
    split <;> omega

/-- The outer per-set loop of `ScanThread.run` (lines 254-301):
`while(self.canQuit.isSet() == 0 and cset < self.sets)`.  Each pass reads the
axis position, commands the axis to the first point, and in FSRS mode
(`type == 0`) closes the shutter, records a ground-state frame when the flag
still reads false, and reopens the shutter; then the inner loop runs and
`cset` advances. -/
def outerLoop (pts : List ℚ) (type : Nat) (hasRef : Bool) (cancel : Option Nat)
    (sets cset t : Nat) : List ScanEvent × Nat :=
  if flagAt cancel t then ([], t + 1)
  else if h : sets ≤ cset then ([], t + 1)
  else
    let e1 := [ScanEvent.axisPos, ScanEvent.gotoPos (pts.getD 0 0)]
    let e2t :=
      if type = 0 then
        (ScanEvent.shutterWrite 0 ::
          ((if flagAt cancel (t + 1) then []
            else [ScanEvent.readFrames, ScanEvent.update 0 0 cset]) ++
           [ScanEvent.shutterWrite 1]), t + 2)
      else (([] : List ScanEvent), t + 1)
    let r := innerLoop pts hasRef cancel cset 0 e2t.2
    let rest := outerLoop pts type hasRef cancel sets (cset + 1) r.2
    (e1 ++ e2t.1 ++ r.1 ++ rest.1, rest.2)
termination_by sets - cset
decreasing_by omega

/-- `ScanThread.run` in full.  The trace starts with the `onStarted` event;
with an empty point list the line `np.amax(self.points)` raises `ValueError`
and the thread dies there (second component `some msg`).  Otherwise: the
reference device wait time is zeroed when a reference input with a `wait`
property was selected, the shutter opens for `type > 0`, the main loop runs,
and the epilogue returns the axis to `points[0]`, closes the shutter,
restores the wait time and posts exactly one `onFinished` (with the
reference-data payload when a reference input was selected). -/
def scanRun (pts : List ℚ) (type sets : Nat) (hasRef refHasWait : Bool)
    (cancel : Option Nat) : List ScanEvent × Option String :=
  if pts.isEmpty then
    ([ScanEvent.started], some "ValueError: amax of an empty sequence")
  else
    let pre :=
      (if hasRef ∧ refHasWait then [ScanEvent.setRefWait] else []) ++
      (if 0 < type then [ScanEvent.shutterWrite 1] else [])
    let body := outerLoop pts type hasRef cancel sets 0 0
    let tail :=
      [ScanEvent.gotoPos (pts.getD 0 0), ScanEvent.shutterWrite 0] ++
      (if hasRef ∧ refHasWait then [ScanEvent.setRefWait] else []) ++
      [ScanEvent.finished hasRef]
    (ScanEvent.started :: (pre ++ body.1 ++ tail), none)

/-- `FSRSScan2.onStart` (lines 124-168).  When the experiment is running the
button press is a stop request (no spawn); otherwise the scan thread is
spawned with whatever point list `prepareScanPoints` produced — there is no
emptiness check anywhere on the path. -/
def FSRSScan2onStart (running : Bool) (points : List ℚ) : Option (List ℚ) :=
  if running then none else some points

/-! ## PIXIS100.readNframes (PIXIS100.py lines 155-190)

The camera driver call `self.cam.readNFrames(N + 20)` is modelled as a
function from the (1-based) attempt number to an optional frame batch, a
batch being a list of rows of width `w` (`none` models the driver returning
an empty list).  Cancellation reuses `flagAt`, indexed by the attempt number
at which the in-loop `canQuit` check runs. -/

/-- The per-attempt frame data retained by the loop body: the batch is kept
only when it holds at least `N + 20` rows (a full frame), and the first 20
settle frames are then discarded; otherwise `data` is reset to the empty
list. -/
def attemptData (drv : Nat → Option (List (List ℚ))) (N a : Nat) :
    List (List ℚ) :=
  match drv a with
  | none => []
  | some rows => if N + 20 ≤ rows.length then rows.drop 20 else []

/-- The retry loop `while(data == [])` of `readNframes`.  `attempt` is the
counter value at the top of the loop (incremented to `a` in the body).  The
result is `none` when the function returns the degenerate all-ones triple
(cancellation observed, or `attempt > 5`), and `some data` when the loop
exits with a full frame batch. -/
def readLoop (drv : Nat → Option (List (List ℚ))) (cancel : Option Nat)
    (N attempt : Nat) : Option (List (List ℚ)) :=
  let a := attempt + 1
  let data := attemptData drv N a
  if flagAt cancel a then none
  else if 5 < a then none
  else if data.isEmpty then readLoop drv cancel N a
  else some data
termination_by 6 - attempt
decreasing_by omega

/-- Every second row of a list, starting with the first. -/
def everyOther {α : Type} : List α → List α
  | [] => []
  | [a] => [a]
  | a :: _ :: rest => a :: everyOther rest

/-- `np.nanmean(rows, axis=0)` over a list of rows, one mean per column
`0 ≤ j < w`. -/
def colMean (w : Nat) (rows : List (List ℚ)) : List ℚ :=
  (List.range w).map
    (fun j => (rows.map (fun r => r.getD j 0)).sum / (rows.length : ℚ))

/-- The even/odd chopping split (lines 186-192): `A` is the flipped column
mean of rows `int(not flip)::2`, `B` of rows `int(flip)::2`, and
`C = nan_to_num(A / B)` elementwise (a zero denominator yields the
`nan_to_num` placeholder, modelled as 0). -/
def paritySplit (w : Nat) (flip : Bool) (rows : List (List ℚ)) :
    List ℚ × List ℚ × List ℚ :=
  let A := (colMean w (everyOther (rows.drop (if flip then 0 else 1)))).reverse
  let B := (colMean w (everyOther (rows.drop (if flip then 1 else 0)))).reverse
  let C := List.zipWith (fun x y => if y = 0 then 0 else x / y) A B
  (C, A, B)

/-- The degenerate all-ones triple `[np.ones(w)] * 3`. -/
def onesTriple (w : Nat) : List ℚ × List ℚ × List ℚ :=
  (List.replicate w 1, List.replicate w 1, List.replicate w 1)

/-- `PIXIS100.readNframes`: run the retry loop from `attempt = 0`; on
`none` return the all-ones triple, otherwise split the retained rows by
chopping parity. -/
def readNframes (drv : Nat → Option (List (List ℚ))) (cancel : Option Nat)
    (N w : Nat) (flip : Bool) : List ℚ × List ℚ × List ℚ :=
  match readLoop drv cancel N 0 with
  | none => onesTriple w
  | some rows => paritySplit w flip rows

/-! ## Theorems -/

theorem flagAt_mono (cancel : Option Nat) (t u : Nat) (h : t ≤ u)
    (ht : flagAt cancel t = true) : flagAt cancel u = true := by
  cases cancel with
  | none => simp [flagAt] at ht
  | some c =>
      simp only [flagAt, decide_eq_true_eq] at ht ⊢
      omega

theorem acquire_foldl_mean (xs : List ℚ) : ∀ (n : Nat) (m : ℚ), 0 < n →
    (xs.foldl acquireStep { N := n, data := m }).data =
      ((n : ℚ) * m + xs.sum) / ((n : ℚ) + xs.length) := by
  induction xs with
  | nil =>
      intro n m hn
      have hn' : ((n : ℚ)) ≠ 0 := by positivity
      simp [List.foldl]
      field_simp
  | cons x xs ih =>
      intro n m hn
      have hstep : acquireStep { N := n, data := m } x =
          { N := n + 1, data := m + (x - m) / ((n + 1 : ℕ) : ℚ) } := by
        simp only [acquireStep]
        have : ¬ (n + 1 = 1) := by omega
        simp [this]
      have hn1 : ((n : ℚ) + 1) ≠ 0 := by positivity
      rw [List.foldl_cons, hstep, ih (n + 1) _ (by omega)]
      have hd : m + (x - m) / ((n + 1 : ℕ) : ℚ) = ((n : ℚ) * m + x) / ((n : ℚ) + 1) := by
        push_cast
        field_simp
        ring
      rw [hd]
      push_cast
      rw [div_eq_div_iff (by positivity) (by positivity)]
      field_simp
      ring

/-- C4: running the `FSRSAcquire.onUpdate` incremental-mean accumulator
`mean_n = mean_(n-1) + (x_n - mean_(n-1)) / n` over a nonempty sequence of
per-set results yields exactly the one-pass arithmetic mean `sum(x_i) / n`,
over exact rational arithmetic. -/
theorem acquireRun_incremental_mean (xs : List ℚ) (h : xs ≠ []) :
    (acquireRun xs).data = xs.sum / (xs.length : ℚ) := by
  cases xs with
  | nil => exact absurd rfl h
  | cons x xs =>
      have hstep : acquireStep { N := 0, data := 0 } x = { N := 1, data := x } := by
        simp [acquireStep]
      rw [acquireRun, List.foldl_cons, hstep, acquire_foldl_mean xs 1 x (by omega)]
      simp only [List.sum_cons, List.length_cons]
      push_cast
      ring

theorem acquireRun_incremental_mean_witness :
    (acquireRun [3, 5, 10]).data = ([3, 5, 10] : List ℚ).sum / (([3, 5, 10] : List ℚ).length : ℚ) :=
  acquireRun_incremental_mean [3, 5, 10] (by decide)

/-- C5: `formatFSRSFilename` produces
`basename ++ "_" ++ sign ++ |int(step)| ++ tag ++ set` with sign letter `p`
for positive steps, `m` for negative steps, `m` also for a zero step with
open shutter or TA type and no letter otherwise, and tag `gr`/`exc` for FSRS
(shutter closed/open) and `_` for any other type; in particular the three
reference vectors of the spec hold. -/
theorem formatFSRSFilename_spec :
    (∀ (type sh st : ℤ) (basename : String) (step : ℚ),
      formatFSRSFilename type basename step st sh =
        basename ++ "_" ++
          (if step > 0 then "p"
           else if step < 0 then "m"
           else if sh = 1 ∨ type = 1 then "m" else "") ++
          toString (pyInt step).natAbs ++
          (if type = 0 then (if sh = 0 then "gr" else "exc") else "_") ++
          toString st) ∧
    formatFSRSFilename 0 "run" (150.4 : ℚ) 2 0 = "run_p150gr2" ∧
    formatFSRSFilename 0 "run" (-150.4 : ℚ) 2 1 = "run_m150exc2" ∧
    formatFSRSFilename 1 "run" 0 0 1 = "run_m0_0" := by
  have G : ∀ (type sh st : ℤ) (basename : String) (step : ℚ),
      formatFSRSFilename type basename step st sh =
        basename ++ "_" ++
          (if step > 0 then "p"
           else if step < 0 then "m"
           else if sh = 1 ∨ type = 1 then "m" else "") ++
          toString (pyInt step).natAbs ++
          (if type = 0 then (if sh = 0 then "gr" else "exc") else "_") ++
          toString st := by
    intro type sh st basename step
    simp only [formatFSRSFilename]
    by_cases h1 : step > 0
    · by_cases ht : type = 0
      · by_cases hs : sh = 0 <;> simp [h1, ht, hs, String.append_assoc]
      · simp [h1, ht, String.append_assoc]
    · by_cases h2 : step < 0
      · by_cases ht : type = 0
        · by_cases hs : sh = 0 <;> simp [h1, h2, ht, hs, String.append_assoc]
        · simp [h1, h2, ht, String.append_assoc]
      · have hz : step = 0 := le_antisymm (not_lt.1 h1) (not_lt.1 h2)
        subst hz
        by_cases hs1 : sh = 1 <;> by_cases ht1 : type = 1 <;>
          by_cases ht : type = 0 <;> by_cases hs : sh = 0 <;>
          simp_all [String.append_assoc]
  refine ⟨G, ?_, ?_, ?_⟩
  · have hfl : pyInt (150.4 : ℚ) = 150 := by
      rw [pyInt, if_pos (by norm_num)]
      norm_num
    rw [G, if_pos (by norm_num : (150.4 : ℚ) > 0), hfl]
    decide
  · have hfl : pyInt (-150.4 : ℚ) = -150 := by
      rw [pyInt, if_neg (by norm_num),
          show (-150.4 : ℚ) = -(150.4 : ℚ) by norm_num, Int.ceil_neg]
      norm_num
    rw [G, if_neg (by norm_num : ¬ (-150.4 : ℚ) > 0),
        if_pos (by norm_num : (-150.4 : ℚ) < 0), hfl]
    decide
  · have hfl : pyInt (0 : ℚ) = 0 := by
      rw [pyInt, if_pos (by norm_num)]
      norm_num
    rw [G, if_neg (by norm_num : ¬ (0 : ℚ) > 0),
        if_neg (by norm_num : ¬ (0 : ℚ) < 0),
        if_pos (by norm_num : ((1 : ℤ) = 1 ∨ (1 : ℤ) = 1)), hfl]
    decide

/-- C6 counterexample: the claim says `setValue` rejects every choice index
outside `[0, len(choices))`, but the source guard
`val != 0 and (val < 0 or val >= len(self.choices))` accepts the value 0
unconditionally — here with an empty choice list, where 0 is outside
`[0, 0)`. -/
theorem setValue_choice_zero_counterexample :
    claimSetValueErrors emptyChoiceProp (.pint 0) = true ∧
    exceptOk (setValue emptyChoiceProp (.pint 0)) = true := by
  decide

/-- C6 amended: `ModProp.setValue` raises exactly when the property is a
choice and the value is a *nonzero* index outside `[0, len(choices))` (index
0 is always accepted, even when the choice list is empty), or a
checkbox/toggle value is not boolean-like, or a progress value is outside
`[0, 100]`, or a spin value is not integer-coercible; otherwise the value is
stored (spin values after integer coercion). -/
theorem setValue_amended_spec (p : ModPropState) (val : PyVal) :
    exceptOk (setValue p val) = ! amendedSetValueErrors p val ∧
    (amendedSetValueErrors p val = false → p.ptype ≠ .spin →
      setValue p val = .ok { p with value := val }) := by
  rcases p with ⟨pt, ch, v⟩
  constructor
  · cases pt
    case spin =>
      rcases hto : pyToInt val with _ | n <;>
        simp [setValue, amendedSetValueErrors, exceptOk, hto]
    all_goals
      cases hb1 : pyEqInt val 0 <;> cases hb2 : pyEqInt val 1 <;>
      cases hb3 : pyLtInt val 0 <;> cases hb4 : pyGeInt val (ch.length : ℤ) <;>
      cases hb5 : pyGtInt val 100 <;>
      simp_all [setValue, amendedSetValueErrors, exceptOk]
  · intro hA hns
    cases pt
    case spin => exact absurd rfl hns
    all_goals
      cases hb1 : pyEqInt val 0 <;> cases hb2 : pyEqInt val 1 <;>
      cases hb3 : pyLtInt val 0 <;> cases hb4 : pyGeInt val (ch.length : ℤ) <;>
      cases hb5 : pyGtInt val 100 <;>
      simp_all [setValue, amendedSetValueErrors, exceptOk]

theorem setValue_amended_spec_witness :
    exceptOk (setValue checkboxDemoProp (.pint 1)) =
      ! amendedSetValueErrors checkboxDemoProp (.pint 1) ∧
    setValue emptyChoiceProp (.pint 0) =
      .ok { emptyChoiceProp with value := .pint 0 } :=
  ⟨(setValue_amended_spec checkboxDemoProp (.pint 1)).1,
   (setValue_amended_spec emptyChoiceProp (.pint 0)).2 (by decide) (by decide)⟩

theorem expStart_of_some (s : ExpState) (h : s.scanThread.isSome) :
    expStart s = (s, false) := by
  rcases s with ⟨th, r⟩
  cases th with
  | none => simp at h
  | some t => rfl

/-- C2: `Experiment.start` called while a scan-thread handle already exists
returns immediately: no thread is spawned and the experiment state is
unchanged, so at most one scan-thread handle exists per experiment module at
any time. -/
theorem expStart_no_double_spawn (s : ExpState) (h : s.scanThread.isSome) :
    (expStart s).2 = false ∧ (expStart s).1 = s := by
  rw [expStart_of_some s h]
  exact ⟨rfl, rfl⟩

theorem expStart_no_double_spawn_witness :
    (expStart demoRunningExp).2 = false ∧ (expStart demoRunningExp).1 = demoRunningExp :=
  expStart_no_double_spawn demoRunningExp (by decide)

/-- C9: when `Experiment.onFinished` runs after the scan thread has already
terminated (`is_alive()` false), the handle is not reset to `None`; every
subsequent `Experiment.start` call on the module then returns immediately
without spawning a new scan thread. -/
theorem onFinished_dead_thread_leak (s : ExpState) (t : ThreadHandle)
    (h1 : s.scanThread = some t) (h2 : t.alive = false) :
    (expOnFinished s).scanThread = some t ∧
    (expStart (expOnFinished s)).2 = false ∧
    (∀ n, expStartN n (expOnFinished s) = expOnFinished s) := by
  have hfin : (expOnFinished s).scanThread = some t := by
    rcases s with ⟨th, r⟩
    cases th with
    | none => simp at h1
    | some u =>
        have hu : u = t := by simpa using h1
        subst hu
        simp [expOnFinished, h2]
  have hsome : (expOnFinished s).scanThread.isSome := by
    rw [hfin]; rfl
  have hstart : expStart (expOnFinished s) = (expOnFinished s, false) :=
    expStart_of_some _ hsome
  refine ⟨hfin, by rw [hstart], ?_⟩
  intro n
  induction n with
  | zero => rfl
  | succ n ih =>
      rw [expStartN, hstart]
      exact ih

theorem onFinished_dead_thread_leak_witness :
    (expOnFinished deadThreadExp).scanThread = some deadThread ∧
    (expStart (expOnFinished deadThreadExp)).2 = false ∧
    (∀ n, expStartN n (expOnFinished deadThreadExp) = expOnFinished deadThreadExp) :=
  onFinished_dead_thread_leak deadThreadExp deadThread rfl rfl

/-- C10: `pyFSRS.onExitApp` iterates over the modules but only accesses the
attribute `m.shutdown` without invoking it, so no module's shutdown hook runs
on the exit path and every module state is left unchanged — even though the
`Experiment.shutdown` hook would change the state of a module with a live
scan thread. -/
theorem onExitApp_never_calls_shutdown :
    (∀ ms : List ExpState, pyFSRSonExitApp ms = ms) ∧
    expShutdown demoRunningExp ≠ demoRunningExp := by
  constructor
  · intro ms
    rw [pyFSRSonExitApp]
    split
    · exact List.map_id' ms
    · rfl
  · decide

theorem linspace_getD (a b : ℚ) (N i : Nat) (h : i < N) :
    (linspace a b N).getD i 0 = a + (b - a) * (i : ℚ) / ((N : ℚ) - 1) := by
  rw [linspace, List.getD_eq_getElem?_getD, List.getElem?_map, List.getElem?_range h]
  rfl

theorem linCount_demo : linCount 0 100 20 = 6 := by
  have habs : |(100 : ℚ) - 0| / |(20 : ℚ)| = 5 := by norm_num [abs_of_nonneg]
  rw [linCount, habs]
  norm_num
  decide

theorem stop_demo : onAxisRangeChangeStop 0 100 20 = 100 := by
  rw [onAxisRangeChangeStop, linCount_demo]
  norm_num

/-- C3: for a linear scan configuration with nonzero step, the point count is
`max(2, floor(|stop - start| / |step|) + 1)` (`linCount`), the stop value is
rewritten to `(count - 1) * step + start` by `onAxisRangeChange`, and the
points then generated by `prepareScanPoints` keep that count, start at
`start`, end at the recomputed stop, and are spaced exactly by `step`, over
exact rational arithmetic. -/
theorem prepareScanPoints_linear_spec (start stop steps : ℚ) (hs : steps ≠ 0)
    (N : Nat) (hN : N = linCount start stop steps)
    (stop2 : ℚ) (hstop : stop2 = onAxisRangeChangeStop start stop steps) :
    (prepareScanPointsLin start stop2 steps).length = N ∧
    linCount start stop2 steps = N ∧
    stop2 = ((N : ℚ) - 1) * steps + start ∧
    (prepareScanPointsLin start stop2 steps).getD 0 0 = start ∧
    (prepareScanPointsLin start stop2 steps).getD (N - 1) 0 = stop2 ∧
    (∀ i, i + 1 < N →
      (prepareScanPointsLin start stop2 steps).getD (i + 1) 0 -
        (prepareScanPointsLin start stop2 steps).getD i 0 = steps) := by
  have hN2 : 2 ≤ N := by
    rw [hN, linCount]
    exact le_max_left _ _
  have hNq : (1 : ℚ) ≤ (N : ℚ) - 1 := by
    have : (2 : ℚ) ≤ (N : ℚ) := by exact_mod_cast hN2
    linarith
  have hNq0 : ((N : ℚ) - 1) ≠ 0 := by linarith
  have hdiff : stop2 - start = ((N : ℚ) - 1) * steps := by
    rw [hstop, onAxisRangeChangeStop, ← hN]
    ring
  have hkey : linCount start stop2 steps = N := by
    rw [linCount]
    have habs : |stop2 - start| = ((N : ℚ) - 1) * |steps| := by
      rw [hdiff, abs_mul, abs_of_nonneg (by linarith : (0 : ℚ) ≤ (N : ℚ) - 1)]
    have hdivq : |stop2 - start| / |steps| = (N : ℚ) - 1 := by
      rw [habs, mul_div_assoc, div_self (abs_ne_zero.mpr hs), mul_one]
    rw [hdivq]
    have hcast : (N : ℚ) - 1 = ((N - 1 : ℕ) : ℚ) := by
      push_cast [Nat.cast_sub (by omega : 1 ≤ N)]
      ring
    rw [hcast, Int.floor_natCast, Int.toNat_natCast]
    omega
  rw [hkey]
  refine ⟨?_, rfl, by rw [hstop, onAxisRangeChangeStop, ← hN], ?_, ?_, ?_⟩
  · rw [prepareScanPointsLin, hkey, linspace, List.length_map, List.length_range]
  · rw [prepareScanPointsLin, hkey, linspace_getD start stop2 N 0 (by omega)]
    simp
  · rw [prepareScanPointsLin, hkey, linspace_getD start stop2 N (N - 1) (by omega)]
    have hcast : ((N - 1 : ℕ) : ℚ) = (N : ℚ) - 1 := by
      push_cast [Nat.cast_sub (by omega : 1 ≤ N)]
      ring
    rw [hcast, mul_div_assoc, div_self hNq0, mul_one]
    ring
  · intro i hi
    rw [prepareScanPointsLin, hkey,
        linspace_getD start stop2 N (i + 1) (by omega),
        linspace_getD start stop2 N i (by omega)]
    rw [hdiff]
    push_cast
    field_simp
    ring

theorem prepareScanPoints_linear_spec_witness :
    (prepareScanPointsLin 0 100 20).length = 6 ∧
    linCount 0 100 20 = 6 ∧
    (100 : ℚ) = (((6 : ℕ) : ℚ) - 1) * 20 + 0 ∧
    (prepareScanPointsLin 0 100 20).getD 0 0 = 0 ∧
    (prepareScanPointsLin 0 100 20).getD (6 - 1) 0 = 100 ∧
    (∀ i, i + 1 < 6 →
      (prepareScanPointsLin 0 100 20).getD (i + 1) 0 -
        (prepareScanPointsLin 0 100 20).getD i 0 = 20) :=
  prepareScanPoints_linear_spec 0 100 20 (by norm_num) 6 linCount_demo.symm
    100 stop_demo.symm

/-- C8: the start path does not reject an empty point sequence.  With "from
file" mode and no file selected, `prepareScanPoints` returns the empty list,
`FSRSScan2.onStart` still spawns the scan thread with it, and the thread dies
from the `np.amax(self.points)` `ValueError` right after posting `onStarted`
— before its main loop, before any axis/shutter command and before any
`onFinished`. -/
theorem onStart_spawns_empty_points :
    FSRSScan2onStart false (prepareScanPointsFromFile "" [1, 2]) = some [] ∧
    (scanRun [] 0 1 false false none).1 = [ScanEvent.started] ∧
    (scanRun [] 0 1 false false none).2.isSome = true := by
  refine ⟨?_, rfl, rfl⟩
  rfl

theorem innerLoop_no_fin (pts : List ℚ) (hasRef : Bool) (cancel : Option Nat)
    (cset cpoint t : Nat) :
    ((innerLoop pts hasRef cancel cset cpoint t).1.countP isFin) = 0 := by
  induction cpoint, t using innerLoop.induct pts hasRef cancel cset with
  | case1 cpoint t h h0 =>
      rw [innerLoop, dif_pos h, dif_pos h0]
      rfl
  | case2 cpoint t h h0 h1 ih =>
      rw [innerLoop, dif_pos h, dif_neg h0, dif_pos h1]
      simp only [List.countP_cons]
      simpa [isFin] using ih
  | case3 cpoint t h h0 h1 ih =>
      rw [innerLoop, dif_pos h, dif_neg h0, dif_neg h1]
      cases hasRef <;>
        simp only [List.countP_cons, List.countP_append] <;>
        simpa [isFin] using ih
  | case4 cpoint t h =>
      rw [innerLoop, dif_neg h]
      rfl

theorem outerLoop_no_fin (pts : List ℚ) (type : Nat) (hasRef : Bool)
    (cancel : Option Nat) (sets cset t : Nat) :
    ((outerLoop pts type hasRef cancel sets cset t).1.countP isFin) = 0 := by
  generalize hk : sets - cset = k
  induction k generalizing cset t with
  | zero =>
      rw [outerLoop]
      by_cases h0 : flagAt cancel t = true
      · rw [if_pos h0]
        rfl
      · rw [if_neg h0, dif_pos (by omega : sets ≤ cset)]
        rfl
  | succ k ih =>
      rw [outerLoop]
      by_cases h0 : flagAt cancel t = true
      · rw [if_pos h0]
        rfl
      · rw [if_neg h0]
        by_cases h1 : sets ≤ cset
        · rw [dif_pos h1]
          rfl
        · rw [dif_neg h1]
          simp only [List.countP_cons, List.countP_append]
          rw [innerLoop_no_fin, ih (cset + 1) _ (by omega)]
          by_cases ht : type = 0
          · by_cases hf : flagAt cancel (t + 1) = true <;>
              simp [ht, hf, isFin]
          · simp [ht, isFin]


/-- C1: for every cancellation schedule (cooperative stop flag set at any
poll index, or never) and every nonempty point list, `ScanThread.run` of
`FSRSScan2` terminates without an exception, commands the axis back to the
first scan point `points[0]`, writes 0 to the shutter, and posts exactly one
`onFinished` notification as the final event; the main loop itself emits no
`finished` event. -/
theorem scanRun_cancel_cleanup (pts : List ℚ) (type sets : Nat)
    (hasRef refHasWait : Bool) (cancel : Option Nat) (h : pts ≠ []) :
    (scanRun pts type sets hasRef refHasWait cancel).2 = none ∧
    (scanRun pts type sets hasRef refHasWait cancel).1.countP isFin = 1 ∧
    ∃ l, (scanRun pts type sets hasRef refHasWait cancel).1 =
        l ++ ([ScanEvent.gotoPos (pts.getD 0 0), ScanEvent.shutterWrite 0] ++
          (if hasRef ∧ refHasWait then [ScanEvent.setRefWait] else []) ++
          [ScanEvent.finished hasRef]) ∧
      l.countP isFin = 0 := by
  have hne : pts.isEmpty = false := by
    cases pts with
    | nil => exact absurd rfl h
    | cons a l => rfl
  rw [scanRun, if_neg (by simp [hne])]
  refine ⟨rfl, ?_, ?_⟩
  · cases hasRef <;> cases refHasWait <;> by_cases h2 : 0 < type <;>
      simp [List.countP_cons, List.countP_append, isFin, outerLoop_no_fin, h2]
  · refine ⟨ScanEvent.started ::
      ((if hasRef ∧ refHasWait then [ScanEvent.setRefWait] else []) ++
        (if 0 < type then [ScanEvent.shutterWrite 1] else []) ++
        (outerLoop pts type hasRef cancel sets 0 0).1), ?_, ?_⟩
    · simp [List.append_assoc]
    · cases hasRef <;> cases refHasWait <;> by_cases h2 : 0 < type <;>
        simp [List.countP_cons, List.countP_append, isFin, outerLoop_no_fin, h2]


theorem scanRun_cancel_cleanup_witness :
    (scanRun [0] 0 1 false false none).2 = none ∧
    (scanRun [0] 0 1 false false none).1.countP isFin = 1 ∧
    ∃ l, (scanRun [0] 0 1 false false none).1 =
        l ++ ([ScanEvent.gotoPos (([0] : List ℚ).getD 0 0), ScanEvent.shutterWrite 0] ++
          (if (false : Bool) ∧ (false : Bool) then [ScanEvent.setRefWait] else []) ++
          [ScanEvent.finished false]) ∧
      l.countP isFin = 0 :=
  scanRun_cancel_cleanup [0] 0 1 false false none (by simp)

theorem readLoop_fail (drv : Nat → Option (List (List ℚ))) (cancel : Option Nat)
    (N : Nat) : ∀ attempt,
    (∀ a, attempt < a → a ≤ 5 → attemptData drv N a = []) →
    readLoop drv cancel N attempt = none := by
  intro attempt
  generalize hk : 6 - attempt = k
  induction k generalizing attempt with
  | zero =>
      intro hfail
      rw [readLoop]
      by_cases hf : flagAt cancel (attempt + 1) = true
      · rw [if_pos hf]
      · rw [if_neg hf, if_pos (by omega : 5 < attempt + 1)]
  | succ k ih =>
      intro hfail
      rw [readLoop]
      by_cases hf : flagAt cancel (attempt + 1) = true
      · rw [if_pos hf]
      · rw [if_neg hf]
        by_cases h5 : 5 < attempt + 1
        · rw [if_pos h5]
        · rw [if_neg h5]
          have hd : attemptData drv N (attempt + 1) = [] :=
            hfail (attempt + 1) (by omega) (by omega)
          rw [if_pos (by simp [hd])]
          exact ih (attempt + 1) (by omega)
            (fun a ha h5a => hfail a (by omega) h5a)

theorem readLoop_cancelled (drv : Nat → Option (List (List ℚ))) (c : Nat)
    (N : Nat) (hc : c ≤ 6) : ∀ attempt,
    (∀ b, attempt < b → b < c → attemptData drv N b = []) →
    readLoop drv (some c) N attempt = none := by
  intro attempt
  generalize hk : 6 - attempt = k
  induction k generalizing attempt with
  | zero =>
      intro hfail
      rw [readLoop]
      have hf : flagAt (some c) (attempt + 1) = true := by
        simp only [flagAt, decide_eq_true_eq]
        omega
      rw [if_pos hf]
  | succ k ih =>
      intro hfail
      rw [readLoop]
      by_cases hf : flagAt (some c) (attempt + 1) = true
      · rw [if_pos hf]
      · rw [if_neg hf]
        have hca : attempt + 1 < c := by
          simp only [flagAt, decide_eq_true_eq] at hf
          omega
        rw [if_neg (by omega : ¬ 5 < attempt + 1)]
        have hd : attemptData drv N (attempt + 1) = [] :=
          hfail (attempt + 1) (by omega) hca
        rw [if_pos (by simp [hd])]
        exact ih (attempt + 1) (by omega)
          (fun b hb hbc => hfail b (by omega) hbc)

theorem readLoop_good (drv : Nat → Option (List (List ℚ))) (cancel : Option Nat)
    (N a : Nat) (ha5 : a ≤ 5) (hgood : attemptData drv N a ≠ [])
    (hflag : ∀ b, b ≤ a → flagAt cancel b = false) : ∀ attempt, attempt < a →
    (∀ b, attempt < b → b < a → attemptData drv N b = []) →
    readLoop drv cancel N attempt = some (attemptData drv N a) := by
  intro attempt
  generalize hk : a - attempt = k
  induction k generalizing attempt with
  | zero =>
      intro hlt
      omega
  | succ k ih =>
      intro hlt hfail
      rw [readLoop]
      rw [if_neg (by rw [hflag (attempt + 1) (by omega)]; simp)]
      rw [if_neg (by omega : ¬ 5 < attempt + 1)]
      by_cases heq : attempt + 1 = a
      · rw [heq, if_neg (by simpa using hgood)]
      · have hd : attemptData drv N (attempt + 1) = [] :=
          hfail (attempt + 1) (by omega) (by omega)
        rw [if_pos (by simp [hd])]
        exact ih (attempt + 1) (by omega) (by omega)
          (fun b hb hba => hfail b (by omega) hba)

/-- C7: `PIXIS100.readNframes` returns the degenerate all-ones triple when
the first five read attempts all fail to produce a full frame batch
(regardless of what the sixth attempt yields), or when the cancellation
token is observed set at a check that is actually reached; otherwise — a
full frame at some attempt `a ≤ 5` with no cancellation observed up to `a` —
it discards the 20 leading settle frames and averages the remaining rows by
even/odd chopping parity. -/
theorem readNframes_retry_cancel_spec (drv : Nat → Option (List (List ℚ)))
    (cancel : Option Nat) (N w : Nat) (flip : Bool) :
    ((∀ a, 1 ≤ a → a ≤ 5 → attemptData drv N a = []) →
      readNframes drv cancel N w flip = onesTriple w) ∧
    (∀ c, cancel = some c → c ≤ 6 →
      (∀ b, 1 ≤ b → b < c → attemptData drv N b = []) →
      readNframes drv cancel N w flip = onesTriple w) ∧
    (∀ a, 1 ≤ a → a ≤ 5 → attemptData drv N a ≠ [] →
      (∀ b, 1 ≤ b → b < a → attemptData drv N b = []) →
      (∀ b, b ≤ a → flagAt cancel b = false) →
      readNframes drv cancel N w flip = paritySplit w flip (attemptData drv N a)) := by
  refine ⟨?_, ?_, ?_⟩
  · intro hfail
    rw [readNframes, readLoop_fail drv cancel N 0 (fun a ha h5 => hfail a ha h5)]
  · intro c hcanc hc hfail
    rw [readNframes, hcanc, readLoop_cancelled drv c N hc 0 (fun b hb hbc => hfail b hb hbc)]
  · intro a ha1 ha5 hgood hfail hflag
    rw [readNframes, readLoop_good drv cancel N a ha5 hgood hflag 0 (by omega)
      (fun b hb hba => hfail b hb hba)]


theorem readNframes_retry_cancel_spec_witness :
    readNframes (fun _ => none) none 3 2 false = onesTriple 2 :=
  (readNframes_retry_cancel_spec (fun _ => none) none 3 2 false).1
    (fun a ha h5 => rfl)

end FSRS
